import Mathlib

/-! Shallow embedding of the sanbe room-status application: the room store
(src/database/db.js), the HTTP handlers (src/server.js) and the browser
client (src/public/app.js).  Mutable module state becomes explicit state
passing, and every read of the wall clock (`new Date()`, `Date.now()`,
SQL `NOW()`) becomes an explicit `now : Nat` parameter (milliseconds; the
ISO strings the JSON mode stores compare chronologically, so a Nat
timestamp is an order-faithful model). -/

/-- A room record as stored in the JSON file or the rooms table.
`is_active` and `is_checkout` are the 0/1 integers the source uses;
`extra` holds properties outside the fixed schema that local-mode
`Object.assign` can attach to a stored record (normally empty, and always
empty for rows of the Postgres table). -/
structure Room where
  room_id : String
  display_order : Int
  category : String
  is_active : Nat
  is_checkout : Nat
  notes : String
  updated_at : Nat
  extra : List (String × String)
deriving DecidableEq, Repr, Inhabited

/-- A partial update (the JSON body of a PATCH request): each known field
may or may not be present, and `extra` lists any properties with unknown
names. -/
structure Updates where
  room_id : Option String
  display_order : Option Int
  category : Option String
  is_active : Option Nat
  is_checkout : Option Nat
  notes : Option String
  updated_at : Option Nat
  extra : List (String × String)
deriving DecidableEq, Repr

/-- The empty partial update (a PATCH body naming no fields at all). -/
def emptyUpdates : Updates := ⟨none, none, none, none, none, none, none, []⟩

/-- One step of merging an own-property onto an object: overwrite the value
when the key already exists, append the property otherwise. -/
def upsert (kvs : List (String × String)) (kv : String × String) : List (String × String) :=
  if kvs.any (fun p => p.1 == kv.1) then
    kvs.map (fun p => if p.1 == kv.1 then (p.1, kv.2) else p)
  else kvs ++ [kv]

/-- Merging the unknown-named properties of the update object onto the
stored record, as `Object.assign` does for keys outside the record's
schema. -/
def assignExtra (base more : List (String × String)) : List (String × String) :=
  more.foldl upsert base

/-- `Object.assign(localCache[idx], updates)` from db.js line 147: every
own property of `updates` is copied onto the stored record, whatever its
name. -/
def objectAssign (r : Room) (u : Updates) : Room :=
  { room_id := u.room_id.getD r.room_id
    display_order := u.display_order.getD r.display_order
    category := u.category.getD r.category
    is_active := u.is_active.getD r.is_active
    is_checkout := u.is_checkout.getD r.is_checkout
    notes := u.notes.getD r.notes
    updated_at := u.updated_at.getD r.updated_at
    extra := assignExtra r.extra u.extra }

/-- Local JSON mode mutation of one record (db.js lines 147-148):
`Object.assign` with the whole partial, then the store overwrites
`updated_at` with the current time. -/
def applyLocal (r : Room) (u : Updates) (now : Nat) : Room :=
  { objectAssign r u with updated_at := now }

/-- Whether the partial names at least one key of the Postgres allowlist
`['is_active', 'is_checkout', 'notes']` (db.js line 135). -/
def hasAllowedKey (u : Updates) : Bool :=
  u.is_active.isSome || u.is_checkout.isSome || u.notes.isSome

/-- Postgres mode mutation of one row (db.js lines 138-141): only the
allowlisted fields that are present are set, and `updated_at = NOW()`. -/
def applyAllowed (r : Room) (u : Updates) (now : Nat) : Room :=
  { r with
    is_active := u.is_active.getD r.is_active
    is_checkout := u.is_checkout.getD r.is_checkout
    notes := u.notes.getD r.notes
    updated_at := now }

/-- `findIndex` followed by an in-place mutation of the found element:
rewrite the first element satisfying `p` with `f`, returning the rewritten
element (or `none` when no element matches) together with the new list. -/
def updateFirst (p : Room → Bool) (f : Room → Room) : List Room → Option Room × List Room
  | [] => (none, [])
  | r :: rest =>
      if p r then (some (f r), f r :: rest)
      else
        let q := updateFirst p f rest
        (q.1, r :: q.2)

/-- db.js `updateRoom` (lines 133-152).  In Postgres mode the partial is
filtered to the allowlist and an empty filtered key set yields `null`
without touching the table; otherwise the matching row (room_id is the
primary key, so at most one row matches) is updated and returned.  In
local JSON mode the first cached record with the id is mutated with
`Object.assign` over the raw partial and re-stamped. -/
def updateRoom (isPostgres : Bool) (cache : List Room) (roomId : String)
    (u : Updates) (now : Nat) : Option Room × List Room :=
  if isPostgres then
    if hasAllowedKey u then
      updateFirst (fun r => r.room_id == roomId) (fun r => applyAllowed r u now) cache
    else (none, cache)
  else
    updateFirst (fun r => r.room_id == roomId) (fun r => applyLocal r u now) cache

/-- db.js `resetAllRooms` (lines 155-170): every record gets
`is_active = 0`, `is_checkout = 0`, `notes = ''` and a fresh stamp; the
full updated roster is the result. -/
def resetAllRooms (cache : List Room) (now : Nat) : List Room :=
  cache.map (fun r => { r with is_active := 0, is_checkout := 0, notes := "", updated_at := now })

/-- The comparator `(a, b) => a.display_order - b.display_order`: ascending
order of `display_order`. -/
def roomLe (a b : Room) : Bool := a.display_order ≤ b.display_order

/-- A freshly provisioned room with the given id, display order and
category (db.js lines 67-73: flags 0, empty notes, stamped at load time). -/
def mkRoom (id : String) (ord : Int) (cat : String) (t : Nat) : Room :=
  ⟨id, ord, cat, 0, 0, "", t, []⟩

/-- The fixed initial roster (db.js lines 35-73): 25 main-building general
rooms and 4 annex special rooms, stamped with the load-time clock. -/
def initialRooms (t : Nat) : List Room :=
  [ mkRoom "201" 100 "general" t, mkRoom "202" 110 "general" t,
    mkRoom "203" 120 "general" t, mkRoom "205" 130 "general" t,
    mkRoom "206" 140 "general" t, mkRoom "207" 150 "general" t,
    mkRoom "208" 160 "general" t, mkRoom "209" 170 "general" t,
    mkRoom "210" 180 "general" t, mkRoom "211" 190 "general" t,
    mkRoom "212" 200 "general" t, mkRoom "213" 210 "general" t,
    mkRoom "215" 220 "general" t, mkRoom "216" 230 "general" t,
    mkRoom "217" 240 "general" t, mkRoom "218" 250 "general" t,
    mkRoom "219" 260 "general" t, mkRoom "220" 270 "general" t,
    mkRoom "221" 280 "general" t, mkRoom "222" 290 "general" t,
    mkRoom "223" 300 "general" t, mkRoom "225" 310 "general" t,
    mkRoom "226-7" 320 "general" t, mkRoom "228" 330 "general" t,
    mkRoom "229" 340 "general" t,
    mkRoom "松虫草" 900 "special" t, mkRoom "翁草" 910 "special" t,
    mkRoom "笹百合" 920 "special" t, mkRoom "寒椿" 930 "special" t ]

/-- db.js `getAllRooms` (lines 99-120), returning the response rows paired
with the store contents after the call.  Postgres mode: `SELECT * ... ORDER
BY display_order ASC`, seeding the initial roster into an empty table (the
inserted rows are then sorted client-side).  Local JSON mode: the cache is
sorted in place and returned. -/
def getAllRooms (isPostgres : Bool) (cache : List Room) (now : Nat) :
    List Room × List Room :=
  if isPostgres then
    if cache.isEmpty then
      ((initialRooms now).mergeSort roomLe, initialRooms now)
    else (cache.mergeSort roomLe, cache)
  else (cache.mergeSort roomLe, cache.mergeSort roomLe)

/-- The response of the PATCH /api/rooms/:roomId handler: the updated
record with HTTP 200, or HTTP 404. -/
inductive PatchResponse where
  | ok (room : Room)
  | notFound
deriving DecidableEq, Repr

/-- server.js PATCH /api/rooms/:roomId (lines 114-132): a non-null result
of `db.updateRoom` is broadcast and answered with 200, a null result is
answered with 404. -/
def patchRoomHandler (isPostgres : Bool) (cache : List Room) (roomId : String)
    (body : Updates) (now : Nat) : PatchResponse × List Room :=
  match updateRoom isPostgres cache roomId body now with
  | (some r, c) => (PatchResponse.ok r, c)
  | (none, c) => (PatchResponse.notFound, c)

/-- The client's two view modes (app.js `currentMode`). -/
inductive Mode where
  | selection
  | management
deriving DecidableEq, Repr

/-- The browser client's module-level state (app.js lines 477-479): the
mirror `rooms`, `currentMode`, and `lastActionTime` (the start of the
suppression window, 0 on load). -/
structure ClientState where
  rooms : List Room
  currentMode : Mode
  lastActionTime : Nat
deriving DecidableEq, Repr

/-- The observable outcome of one client event handler: the new client
state, the PATCH requests it issued (room id and body), and the toasts it
showed (message and type). -/
structure ActionResult where
  state : ClientState
  requests : List (String × Updates)
  toasts : List (String × String)
deriving DecidableEq, Repr

/-- JavaScript truthiness of the 0/1 flags. -/
def truthy (n : Nat) : Bool := n != 0

/-- The toast message both zero-selection guards show. -/
def selectPrompt : String := "使用する客室を選択してください"

/-- `rooms.filter(r => r.is_active).length`. -/
def activeCount (rooms : List Room) : Nat :=
  (rooms.filter (fun r => truthy r.is_active)).length

/-- app.js `toggleRoomSelection` (lines 633-646): when the room is found,
record the action time, flip `is_active` optimistically on the mirror
record, and issue the PATCH; otherwise do nothing. -/
def toggleRoomSelection (st : ClientState) (now : Nat) (roomId : String) : ActionResult :=
  match st.rooms.find? (fun r => r.room_id == roomId) with
  | none => ⟨st, [], []⟩
  | some room =>
      let newValue : Nat := if truthy room.is_active then 0 else 1
      let rooms2 :=
        (updateFirst (fun r => r.room_id == roomId)
          (fun r => { r with is_active := newValue }) st.rooms).2
      ⟨{ st with rooms := rooms2, lastActionTime := now },
        [(roomId, { emptyUpdates with is_active := some newValue })], []⟩

/-- app.js `toggleOut` (lines 781-817): when the room is found, record the
action time, flip `is_checkout` optimistically on the mirror record, and
issue the PATCH; otherwise do nothing. -/
def toggleOut (st : ClientState) (now : Nat) (roomId : String) : ActionResult :=
  match st.rooms.find? (fun r => r.room_id == roomId) with
  | none => ⟨st, [], []⟩
  | some room =>
      let newValue : Nat := if truthy room.is_checkout then 0 else 1
      let rooms2 :=
        (updateFirst (fun r => r.room_id == roomId)
          (fun r => { r with is_checkout := newValue }) st.rooms).2
      ⟨{ st with rooms := rooms2, lastActionTime := now },
        [(roomId, { emptyUpdates with is_checkout := some newValue })], []⟩

/-- app.js `handleNotesChange` (lines 832-841): when the room is found and
the typed value differs from the mirror's `notes`, issue the PATCH.  The
handler touches neither the mirror nor `lastActionTime` (the typed text
lives only in the DOM input until the server's response is patched in). -/
def handleNotesChange (st : ClientState) (roomId value : String) : ActionResult :=
  match st.rooms.find? (fun r => r.room_id == roomId) with
  | none => ⟨st, [], []⟩
  | some room =>
      if room.notes ≠ value then
        ⟨st, [(roomId, { emptyUpdates with notes := some value })], []⟩
      else ⟨st, [], []⟩

/-- app.js `fetchRooms` (lines 509-535), successful-response path: a silent
pull less than 2000 ms after `lastActionTime` returns without fetching;
otherwise the mirror is replaced when the server snapshot differs from it
(the JSON string comparison only skips a redundant re-render). -/
def fetchRooms (st : ClientState) (now : Nat) (silent : Bool) (server : List Room) : ClientState :=
  if silent = true ∧ now - st.lastActionTime < 2000 then st
  else if server = st.rooms then st
  else { st with rooms := server }

/-- app.js `updateRoomInList` (lines 866-871): `findIndex` on the room id
and overwrite of the found entry; a miss leaves the mirror unchanged. -/
def updateRoomInList (rooms : List Room) (updated : Room) : List Room :=
  (updateFirst (fun r => r.room_id == updated.room_id) (fun _ => updated) rooms).2

/-- app.js `renderCurrentView` content (lines 579-585 with the two view
builders): the selection view lists all rooms split into the general and
special sections (lines 588-622), the management view lists the active
rooms (lines 684-737). -/
def renderCurrentView (st : ClientState) : List Room :=
  match st.currentMode with
  | Mode.selection =>
      st.rooms.filter (fun r => r.category == "general")
        ++ st.rooms.filter (fun r => r.category == "special")
  | Mode.management => st.rooms.filter (fun r => truthy r.is_active)

/-- app.js `confirmSelection` (lines 673-681): with zero active rooms, show
the error toast and change nothing; otherwise switch to management and show
the success toast. -/
def confirmSelection (st : ClientState) : ActionResult :=
  let n := activeCount st.rooms
  if n = 0 then ⟨st, [], [(selectPrompt, "error")]⟩
  else
    ⟨{ st with currentMode := Mode.management }, [],
      [(toString n ++ "室を選択しました", "success")]⟩

/-- app.js `toggleMode` (lines 550-561): from selection, the switch to
management is guarded by a nonzero active count (error toast and no change
otherwise); from management, the switch back is unconditional. -/
def toggleMode (st : ClientState) : ActionResult :=
  match st.currentMode with
  | Mode.selection =>
      if activeCount st.rooms = 0 then ⟨st, [], [(selectPrompt, "error")]⟩
      else ⟨{ st with currentMode := Mode.management }, [], []⟩
  | Mode.management => ⟨{ st with currentMode := Mode.selection }, [], []⟩

/-- Modelled from the spec: the client-side handler for the `roomUpdate`
push event is missing from the sources (app.js never opens an EventSource;
the sources only hold the server's `/api/events` endpoint and `broadcast`).
The spec's push-reconciliation step says: on receiving a Change-Notifier
event for a single room, patch that one record into the mirror and
re-render only that record's fragment, regardless of suppression window
state.  The patch itself is the source's `updateRoomInList`. -/
def handleRoomUpdate (st : ClientState) (r : Room) : ClientState :=
  { st with rooms := updateRoomInList st.rooms r }

/-- Room 201 in an active, not-checked-out state, stamped at 1000. -/
def cRoom201 : Room := ⟨"201", 100, "general", 1, 0, "", 1000, []⟩

/-- Room 202 in an inactive state, stamped at 1000. -/
def cRoom202 : Room := ⟨"202", 110, "general", 0, 0, "", 1000, []⟩

/-- Room 201 in an inactive state. -/
def cRoomIdle : Room := ⟨"201", 100, "general", 0, 0, "", 1000, []⟩

/-- A partial update naming only `display_order` (an immutable field). -/
def uOrder999 : Updates := { emptyUpdates with display_order := some 999 }

/-- A partial update carrying only an unknown-named property. -/
def uFooExtra : Updates := { emptyUpdates with extra := [("foo", "1")] }

/-- A partial update switching checkout on. -/
def uCheckOn : Updates := { emptyUpdates with is_checkout := some 1 }

/-- A partial update switching checkout off. -/
def uCheckOff : Updates := { emptyUpdates with is_checkout := some 0 }

/-- A partial update naming `notes` together with a client-supplied
`updated_at`. -/
def uStamp123 : Updates := { emptyUpdates with notes := some "x", updated_at := some 123 }

/-- A partial update mixing an allowed field (`notes`), a schema field
outside the allowlist (`display_order`) and an unknown-named property. -/
def uMix : Updates :=
  { emptyUpdates with notes := some "x", display_order := some 999, extra := [("foo", "1")] }

/-- The record local-mode `updateRoom` produces from `cRoom201` and `uMix`
at time 5. -/
def rLocalMix : Room := ⟨"201", 999, "general", 1, 0, "x", 5, [("foo", "1")]⟩

/-- The record local-mode `updateRoom` produces from `cRoom201` and
`uStamp123` at time 777 (the client's 123 is not persisted). -/
def rStamped : Room := ⟨"201", 100, "general", 1, 0, "x", 777, []⟩

/-- The record local-mode `updateRoom` produces from `cRoom201` and
`uCheckOn` at time 100. -/
def c4r1 : Room := ⟨"201", 100, "general", 1, 1, "", 100, []⟩

/-- A client in management mode mirroring room 201, no action recorded yet
(`lastActionTime` still 0, its on-load value). -/
def cStMgmt : ClientState := ⟨[cRoom201], Mode.management, 0⟩

/-- A stale server snapshot of room 201 (an old note). -/
def cStale : List Room := [⟨"201", 100, "general", 1, 0, "old", 900, []⟩]

/-- A client in management mode whose last recorded action was at 4000. -/
def cStW : ClientState := ⟨[cRoom201], Mode.management, 4000⟩

/-- An authoritative pushed record for room 201. -/
def rPush : Room := ⟨"201", 100, "general", 1, 1, "server note", 2000, []⟩

/-- A client in selection mode with zero active rooms. -/
def stSel : ClientState := ⟨[cRoomIdle, cRoom202], Mode.selection, 0⟩

/-- A two-room cache stamped at 1000. -/
def cCache2 : List Room := [cRoom201, cRoom202]

/-- A first accepted mutation of room 201, at clock reading 100. -/
def c4first : Option Room × List Room := updateRoom false [cRoom201] "201" uCheckOn 100

/-- A second accepted mutation of room 201, issued in the same millisecond
(the clock still reads 100). -/
def c4second : Option Room × List Room := updateRoom false c4first.2 "201" uCheckOff 100

/-- A successful `updateFirst` hit rewrites an element of the list: the
returned record is `f` of some matching element, and it is stored in the
resulting list. -/
theorem updateFirst_fst_some {p : Room → Bool} {f : Room → Room} {l : List Room} {r : Room}
    (h : (updateFirst p f l).1 = some r) :
    ∃ r0, r0 ∈ l ∧ p r0 = true ∧ r = f r0 ∧ r ∈ (updateFirst p f l).2 := by
  induction l with
  | nil => simp [updateFirst] at h
  | cons a rest ih =>
      by_cases hp : p a = true
      · simp only [updateFirst, hp, if_true] at h
        simp only [Option.some.injEq] at h
        refine ⟨a, List.mem_cons_self a rest, hp, h.symm, ?_⟩
        simp [updateFirst, hp, h]
      · simp only [updateFirst, hp, if_false, Bool.false_eq_true] at h
        obtain ⟨r0, hmem, hp0, hr, hmem2⟩ := ih h
        refine ⟨r0, List.mem_cons_of_mem a hmem, hp0, hr, ?_⟩
        simp only [updateFirst, hp, if_false, Bool.false_eq_true]
        exact List.mem_cons_of_mem a hmem2

/-- `updateFirst` misses exactly when no element matches. -/
theorem updateFirst_fst_none {p : Room → Bool} {f : Room → Room} {l : List Room} :
    (updateFirst p f l).1 = none ↔ ∀ x ∈ l, p x = false := by
  induction l with
  | nil => simp [updateFirst]
  | cons a rest ih =>
      by_cases hp : p a = true
      · simp [updateFirst, hp]
      · have hp2 : p a = false := by simpa using hp
        simp [updateFirst, hp2, ih]

/-- An accepted `updateRoom` stamps the returned record with the current
time, in either persistence mode. -/
theorem updateRoom_fst_stamp {b : Bool} {cache : List Room} {id : String}
    {u : Updates} {now : Nat} {r : Room}
    (h : (updateRoom b cache id u now).1 = some r) : r.updated_at = now := by
  unfold updateRoom at h
  cases b with
  | true =>
      by_cases hk : hasAllowedKey u = true
      · simp only [if_true, hk, Bool.true_eq_false, if_false] at h
        obtain ⟨r0, _, _, hr, _⟩ := updateFirst_fst_some h
        rw [hr]; simp [applyAllowed]
      · simp [hk] at h
  | false =>
      simp only [Bool.false_eq_true, if_false] at h
      obtain ⟨r0, _, _, hr, _⟩ := updateFirst_fst_some h
      rw [hr]; simp [applyLocal]

/-- The record an accepted `updateRoom` returns is the one it stores. -/
theorem updateRoom_fst_mem_snd {b : Bool} {cache : List Room} {id : String}
    {u : Updates} {now : Nat} {r : Room}
    (h : (updateRoom b cache id u now).1 = some r) :
    r ∈ (updateRoom b cache id u now).2 := by
  unfold updateRoom at h ⊢
  cases b with
  | true =>
      by_cases hk : hasAllowedKey u = true
      · simp only [if_true, hk] at h ⊢
        obtain ⟨_, _, _, _, hmem⟩ := updateFirst_fst_some h
        exact hmem
      · simp [hk] at h
  | false =>
      simp only [Bool.false_eq_true, if_false] at h ⊢
      obtain ⟨_, _, _, _, hmem⟩ := updateFirst_fst_some h
      exact hmem

/-- Patching a pushed record into the mirror makes it the record found
under its id. -/
theorem updateRoomInList_find {l : List Room} {u : Room}
    (h : ∃ x ∈ l, x.room_id = u.room_id) :
    (updateRoomInList l u).find? (fun x => x.room_id == u.room_id) = some u := by
  induction l with
  | nil => simp at h
  | cons a rest ih =>
      by_cases hp : (a.room_id == u.room_id) = true
      · simp [updateRoomInList, updateFirst, hp, List.find?]
      · have hrest : ∃ x ∈ rest, x.room_id = u.room_id := by
          obtain ⟨x, hx, hid⟩ := h
          rcases List.mem_cons.mp hx with rfl | hx2
          · exact absurd (by simp [hid]) hp
          · exact ⟨x, hx2, hid⟩
        have := ih hrest
        simp only [updateRoomInList, updateFirst, hp, Bool.false_eq_true, if_false] at this ⊢
        simp [List.find?, hp, this]

/-- Every room of a reset roster carries the reset-time stamp. -/
theorem resetAllRooms_stamp {cache : List Room} {now : Nat} {r : Room}
    (h : r ∈ resetAllRooms cache now) : r.updated_at = now := by
  simp only [resetAllRooms, List.mem_map] at h
  obtain ⟨r0, _, hr⟩ := h
  rw [← hr]

/-- C7: list() always returns all rooms of the roster sorted by
display_order ascending, regardless of update history; no room is omitted
and none is duplicated.  The returned rows are a permutation of the store
contents after the call and are pairwise ordered by display_order. -/
theorem C7_list_ordered (b : Bool) (cache : List Room) (now : Nat) :
    ((getAllRooms b cache now).1).Perm (getAllRooms b cache now).2 ∧
    List.Pairwise (fun x y : Room => x.display_order ≤ y.display_order)
      (getAllRooms b cache now).1 := by
  have htrans : ∀ x y z : Room, roomLe x y = true → roomLe y z = true → roomLe x z = true := by
    intro x y z hxy hyz
    simp only [roomLe, decide_eq_true_eq] at hxy hyz ⊢
    exact le_trans hxy hyz
  have htotal : ∀ x y : Room, (roomLe x y || roomLe y x) = true := by
    intro x y
    simp only [roomLe, Bool.or_eq_true, decide_eq_true_eq]
    exact le_total _ _
  have hsorted : ∀ l : List Room,
      List.Pairwise (fun x y : Room => x.display_order ≤ y.display_order)
        (l.mergeSort roomLe) := by
    intro l
    refine (List.sorted_mergeSort htrans htotal l).imp ?_
    intro x y hxy
    simpa [roomLe] using hxy
  unfold getAllRooms
  cases b with
  | false =>
      simp only [Bool.false_eq_true, if_false]
      exact ⟨List.Perm.refl _, hsorted cache⟩
  | true =>
      by_cases he : cache.isEmpty
      · simp only [if_pos, he, if_true]
        exact ⟨List.mergeSort_perm _ _, hsorted _⟩
      · simp only [if_pos, he, if_false, Bool.false_eq_true]
        exact ⟨List.mergeSort_perm _ _, hsorted _⟩

/-- C10: reset() preserves the roster's membership and each room's
immutable fields: the reset roster lists exactly the same room_id values in
the same positions, with display_order and category untouched. -/
theorem C10_reset_frame (cache : List Room) (now : Nat) :
    (resetAllRooms cache now).map (fun r => (r.room_id, r.display_order, r.category))
      = cache.map (fun r => (r.room_id, r.display_order, r.category)) := by
  simp [resetAllRooms]

/-- C5: after reset() completes, every room in the roster has
is_active = 0, is_checkout = 0 and notes = "" with no exceptions, each
room is re-stamped with the same or a later updated_at (given that the
clock did not run backwards), and the full updated roster (same ids, same
positions) is returned. -/
theorem C5_reset_complete (cache : List Room) (now : Nat)
    (h : ∀ r ∈ cache, r.updated_at ≤ now) :
    (∀ r ∈ resetAllRooms cache now,
        r.is_active = 0 ∧ r.is_checkout = 0 ∧ r.notes = "" ∧ r.updated_at = now) ∧
    (resetAllRooms cache now).map Room.room_id = cache.map Room.room_id ∧
    ∀ q ∈ cache.zip (resetAllRooms cache now), q.1.updated_at ≤ q.2.updated_at := by
  refine ⟨?_, ?_, ?_⟩
  · intro r hr
    simp only [resetAllRooms, List.mem_map] at hr
    obtain ⟨r0, _, hr0⟩ := hr
    rw [← hr0]
    exact ⟨rfl, rfl, rfl, rfl⟩
  · simp [resetAllRooms]
  · intro q hq
    obtain ⟨x, y⟩ := q
    have hmem := List.of_mem_zip hq
    have hy : y.updated_at = now := resetAllRooms_stamp hmem.2
    simpa [hy] using h x hmem.1

/-- C5 witness: the reset of a concrete two-room cache at time 9999. -/
theorem C5_reset_complete_witness :
    (∀ r ∈ cCache2, r.updated_at ≤ 9999) ∧
    ((∀ r ∈ resetAllRooms cCache2 9999,
        r.is_active = 0 ∧ r.is_checkout = 0 ∧ r.notes = "" ∧ r.updated_at = 9999) ∧
      (resetAllRooms cCache2 9999).map Room.room_id = cCache2.map Room.room_id ∧
      ∀ q ∈ cCache2.zip (resetAllRooms cCache2 9999), q.1.updated_at ≤ q.2.updated_at) :=
  ⟨by decide, C5_reset_complete cCache2 9999 (by decide)⟩

/-- C9: for every accepted update, the stored updated_at is the Room
Store's own clock reading `now`; whatever updated_at value the client put
in the partial is never persisted, and the returned record is the stored
one. -/
theorem C9_store_stamps (b : Bool) (cache : List Room) (id : String) (u : Updates)
    (now : Nat) (r : Room)
    (h : (updateRoom b cache id u now).1 = some r) :
    r.updated_at = now ∧ r ∈ (updateRoom b cache id u now).2 :=
  ⟨updateRoom_fst_stamp h, updateRoom_fst_mem_snd h⟩

/-- C9 witness: a partial carrying a client-supplied updated_at of 123 is
accepted at server time 777, and the stored record carries 777. -/
theorem C9_store_stamps_witness :
    ((updateRoom false [cRoom201] "201" uStamp123 777).1 = some rStamped) ∧
    (rStamped.updated_at = 777 ∧
      rStamped ∈ (updateRoom false [cRoom201] "201" uStamp123 777).2) :=
  ⟨by decide, C9_store_stamps false [cRoom201] "201" uStamp123 777 rStamped (by decide)⟩

/-- C4 counterexample: two successive accepted mutations of room 201 both
issued while the clock reads 100 (the JS timestamps have millisecond
resolution, so two calls in the same millisecond read the same clock
value).  Both are accepted, yet the second updated_at is not strictly
greater than the first, so updated_at is not strictly increasing. -/
theorem C4_counterexample :
    c4first.1.isSome = true ∧ c4second.1.isSome = true ∧
    ¬ ((c4first.1.map Room.updated_at).getD 0 < (c4second.1.map Room.updated_at).getD 0) := by
  decide

/-- C4 amended: every accepted mutation (update or reset) stamps the record
with the store's current clock reading, so successive accepted mutations of
one room produce non-decreasing updated_at values whenever the clock is
non-decreasing, and strictly increasing ones whenever the clock strictly
advances between the two mutations. -/
theorem C4_amended (b1 b2 : Bool) (c0 c1 : List Room) (id : String) (u1 u2 : Updates)
    (t1 t2 : Nat) (r1 : Room)
    (h1 : updateRoom b1 c0 id u1 t1 = (some r1, c1)) (hle : t1 ≤ t2) :
    (∀ r2, (updateRoom b2 c1 id u2 t2).1 = some r2 →
      r1.updated_at ≤ r2.updated_at ∧ (t1 < t2 → r1.updated_at < r2.updated_at)) ∧
    ∀ r2 ∈ resetAllRooms c1 t2, r1.updated_at ≤ r2.updated_at := by
  have hfst : (updateRoom b1 c0 id u1 t1).1 = some r1 := by rw [h1]
  have hs1 : r1.updated_at = t1 := updateRoom_fst_stamp hfst
  refine ⟨?_, ?_⟩
  · intro r2 h2
    have hs2 : r2.updated_at = t2 := updateRoom_fst_stamp h2
    rw [hs1, hs2]
    exact ⟨hle, fun hlt => hlt⟩
  · intro r2 hr2
    rw [hs1, resetAllRooms_stamp hr2]
    exact hle

/-- C4 witness: a checkout toggle at time 100 followed by a second toggle
at time 150 and a reset at time 150. -/
theorem C4_amended_witness :
    (updateRoom false [cRoom201] "201" uCheckOn 100 = (some c4r1, [c4r1])) ∧
    ((100 : Nat) ≤ 150) ∧
    ((∀ r2, (updateRoom false [c4r1] "201" uCheckOff 150).1 = some r2 →
        c4r1.updated_at ≤ r2.updated_at ∧ ((100 : Nat) < 150 → c4r1.updated_at < r2.updated_at)) ∧
      ∀ r2 ∈ resetAllRooms [c4r1] 150, c4r1.updated_at ≤ r2.updated_at) :=
  ⟨by decide, by decide,
    C4_amended false false [cRoom201] [c4r1] "201" uCheckOn uCheckOff 100 150 c4r1
      (by decide) (by decide)⟩

/-- C2 counterexample: in local JSON mode, a PATCH naming `display_order`
(a field outside the mutable set) changes the stored display_order from 100
to 999, and a PATCH carrying only the unknown-named property `foo` stores
that property on the record instead of ignoring it. -/
theorem C2_counterexample :
    cRoom201.display_order = 100 ∧ cRoom201.extra = [] ∧
    ((updateRoom false [cRoom201] "201" uOrder999 5).1.map Room.display_order = some 999) ∧
    ((updateRoom false [cRoom201] "201" uFooExtra 5).1.map Room.extra = some [("foo", "1")]) := by
  decide

/-- C2 amended: an accepted update changes only the supplied fields, where
in local JSON mode the supplied fields are every property named in the
partial (including room_id, display_order, category and unknown names, via
`Object.assign`), while in Postgres mode they are only the supplied fields
among is_active, is_checkout and notes; in both modes every field not named
in the partial keeps its stored value, apart from the store-assigned
updated_at. -/
theorem C2_amended (cache : List Room) (id : String) (u : Updates) (now : Nat) (r : Room) :
    ((updateRoom false cache id u now).1 = some r →
      ∃ r0, r0 ∈ cache ∧ r0.room_id = id ∧
        r.room_id = u.room_id.getD r0.room_id ∧
        r.display_order = u.display_order.getD r0.display_order ∧
        r.category = u.category.getD r0.category ∧
        r.is_active = u.is_active.getD r0.is_active ∧
        r.is_checkout = u.is_checkout.getD r0.is_checkout ∧
        r.notes = u.notes.getD r0.notes ∧
        r.updated_at = now ∧
        r.extra = assignExtra r0.extra u.extra) ∧
    ((updateRoom true cache id u now).1 = some r →
      ∃ r0, r0 ∈ cache ∧ r0.room_id = id ∧
        r.room_id = r0.room_id ∧
        r.display_order = r0.display_order ∧
        r.category = r0.category ∧
        r.extra = r0.extra ∧
        r.is_active = u.is_active.getD r0.is_active ∧
        r.is_checkout = u.is_checkout.getD r0.is_checkout ∧
        r.notes = u.notes.getD r0.notes ∧
        r.updated_at = now) := by
  constructor
  · intro h
    simp only [updateRoom, Bool.false_eq_true, if_false] at h
    obtain ⟨r0, hmem, hp, hr, _⟩ := updateFirst_fst_some h
    refine ⟨r0, hmem, by simpa using hp, ?_⟩
    rw [hr]
    exact ⟨rfl, rfl, rfl, rfl, rfl, rfl, rfl, rfl⟩
  · intro h
    by_cases hk : hasAllowedKey u = true
    · simp only [updateRoom, if_true, hk] at h
      obtain ⟨r0, hmem, hp, hr, _⟩ := updateFirst_fst_some h
      refine ⟨r0, hmem, by simpa using hp, ?_⟩
      rw [hr]
      exact ⟨rfl, rfl, rfl, rfl, rfl, rfl, rfl, rfl⟩
    · simp [updateRoom, hk] at h

/-- C2 amended witness: a mixed partial against room 201 in local mode,
showing supplied fields (notes, display_order, an unknown name) applied and
unsupplied fields (category, is_active, is_checkout) untouched. -/
theorem C2_amended_witness :
    ((updateRoom false [cRoom201] "201" uMix 5).1 = some rLocalMix) ∧
    (∃ r0, r0 ∈ [cRoom201] ∧ r0.room_id = "201" ∧
      rLocalMix.room_id = uMix.room_id.getD r0.room_id ∧
      rLocalMix.display_order = uMix.display_order.getD r0.display_order ∧
      rLocalMix.category = uMix.category.getD r0.category ∧
      rLocalMix.is_active = uMix.is_active.getD r0.is_active ∧
      rLocalMix.is_checkout = uMix.is_checkout.getD r0.is_checkout ∧
      rLocalMix.notes = uMix.notes.getD r0.notes ∧
      rLocalMix.updated_at = 5 ∧
      rLocalMix.extra = assignExtra r0.extra uMix.extra) :=
  ⟨by decide, (C2_amended [cRoom201] "201" uMix 5 rLocalMix).1 (by decide)⟩

/-- The PATCH endpoint answers 404 exactly when the store returned null. -/
theorem patchRoomHandler_notFound_iff {b : Bool} {cache : List Room} {id : String}
    {u : Updates} {now : Nat} :
    (patchRoomHandler b cache id u now).1 = PatchResponse.notFound ↔
      (updateRoom b cache id u now).1 = none := by
  unfold patchRoomHandler
  rcases hu : updateRoom b cache id u now with ⟨fst, snd⟩
  cases fst <;> simp

/-- C6 counterexample: in Postgres mode a PATCH for the present room 201
whose body names no field of the allowlist is answered 404 (NotFound), so
presence of room_id does not rule NotFound out. -/
theorem C6_counterexample :
    ([cRoom201].any (fun r => r.room_id == "201") = true) ∧
    (patchRoomHandler true [cRoom201] "201" uFooExtra 5).1 = PatchResponse.notFound := by
  decide

/-- C6 amended: in local JSON mode the PATCH answers NotFound if and only
if room_id is absent from the roster; in Postgres mode it answers NotFound
if and only if room_id is absent or the partial names none of is_active,
is_checkout and notes. -/
theorem C6_amended (cache : List Room) (id : String) (u : Updates) (now : Nat) :
    ((patchRoomHandler false cache id u now).1 = PatchResponse.notFound ↔
      ∀ x ∈ cache, x.room_id ≠ id) ∧
    ((patchRoomHandler true cache id u now).1 = PatchResponse.notFound ↔
      (hasAllowedKey u = false ∨ ∀ x ∈ cache, x.room_id ≠ id)) := by
  constructor
  · rw [patchRoomHandler_notFound_iff]
    simp only [updateRoom, Bool.false_eq_true, if_false]
    rw [updateFirst_fst_none]
    simp
  · rw [patchRoomHandler_notFound_iff]
    by_cases hk : hasAllowedKey u = true
    · simp only [updateRoom, if_true, hk]
      rw [updateFirst_fst_none]
      simp [hk]
    · have hk2 : hasAllowedKey u = false := by simpa using hk
      simp [updateRoom, hk2]

/-- C1 counterexample: a notes edit is a local user action, yet
`handleNotesChange` issues the PATCH without recording the action time (the
suppression window stays at its old value, here the on-load 0) and without
touching the mirror; a background silent pull 500 ms later (edit at wall
time 10000, pull at 10500, inside the claimed 2-second window) is therefore
not skipped: the mirror is replaced by the stale snapshot and the next
render shows the stale note instead of the user's value. -/
theorem C1_counterexample :
    (handleNotesChange cStMgmt "201" "x").requests =
      [("201", { emptyUpdates with notes := some "x" })] ∧
    (handleNotesChange cStMgmt "201" "x").state = cStMgmt ∧
    cStMgmt.lastActionTime = 0 ∧
    fetchRooms cStMgmt 10500 true cStale = { cStMgmt with rooms := cStale } ∧
    renderCurrentView (fetchRooms cStMgmt 10500 true cStale) = cStale := by
  decide

/-- C1 amended: the toggle-active and toggle-checkout actions record the
current time as the start of the suppression window, but a notes edit does
not (it leaves the client state, `lastActionTime` included, unchanged); a
background silent pull issued less than 2 seconds after the recorded
`lastActionTime` is skipped, leaving the state untouched so the optimistic
value of a toggle remains visible. -/
theorem C1_amended (st : ClientState) (now : Nat) (id v : String) (server : List Room)
    (hmem : (st.rooms.find? (fun r => r.room_id == id)).isSome = true)
    (hwin : now - st.lastActionTime < 2000) :
    (toggleRoomSelection st now id).state.lastActionTime = now ∧
    (toggleOut st now id).state.lastActionTime = now ∧
    (handleNotesChange st id v).state = st ∧
    fetchRooms st now true server = st := by
  obtain ⟨room, hr⟩ := Option.isSome_iff_exists.mp hmem
  refine ⟨?_, ?_, ?_, ?_⟩
  · simp [toggleRoomSelection, hr]
  · simp [toggleOut, hr]
  · simp only [handleNotesChange, hr]
    split <;> rfl
  · simp [fetchRooms, hwin]

/-- C1 amended witness: a client whose last toggle was at 4000, acted on
again at 5000; the silent pull at 5000 falls inside the window and is
skipped. -/
theorem C1_amended_witness :
    ((cStW.rooms.find? (fun r => r.room_id == "201")).isSome = true) ∧
    ((5000 : Nat) - cStW.lastActionTime < 2000) ∧
    ((toggleRoomSelection cStW 5000 "201").state.lastActionTime = 5000 ∧
      (toggleOut cStW 5000 "201").state.lastActionTime = 5000 ∧
      (handleNotesChange cStW "201" "x").state = cStW ∧
      fetchRooms cStW 5000 true [] = cStW) :=
  ⟨by decide, by decide, C1_amended cStW 5000 "201" "x" [] (by decide) (by decide)⟩

/-- C3: on a roomUpdate push event for a room present in the mirror, the
client patches that one record into the mirror — the record found under the
pushed id is exactly the pushed record — independently of the suppression
window (`lastActionTime` is neither consulted nor changed), and the pushed
record appears in the next render (here: the management view when the
pushed room is active). -/
theorem C3_push_reconciliation (st : ClientState) (r : Room) (t : Nat)
    (hmem : ∃ x ∈ st.rooms, x.room_id = r.room_id) :
    (handleRoomUpdate st r).lastActionTime = st.lastActionTime ∧
    (handleRoomUpdate st r).currentMode = st.currentMode ∧
    (handleRoomUpdate { st with lastActionTime := t } r).rooms
      = (handleRoomUpdate st r).rooms ∧
    (handleRoomUpdate st r).rooms.find? (fun x => x.room_id == r.room_id) = some r ∧
    (st.currentMode = Mode.management → truthy r.is_active = true →
      r ∈ renderCurrentView (handleRoomUpdate st r)) := by
  refine ⟨rfl, rfl, rfl, updateRoomInList_find hmem, ?_⟩
  intro hmode hact
  have hfind := updateRoomInList_find (l := st.rooms) (u := r) hmem
  have hmemR : r ∈ updateRoomInList st.rooms r := List.mem_of_find?_eq_some hfind
  simp only [renderCurrentView, handleRoomUpdate, hmode]
  exact List.mem_filter.mpr ⟨hmemR, hact⟩

/-- C3 witness: an authoritative push for room 201 against a management
client whose suppression window would still be open. -/
theorem C3_push_reconciliation_witness :
    (∃ x ∈ cStMgmt.rooms, x.room_id = rPush.room_id) ∧
    ((handleRoomUpdate cStMgmt rPush).lastActionTime = cStMgmt.lastActionTime ∧
      (handleRoomUpdate cStMgmt rPush).currentMode = cStMgmt.currentMode ∧
      (handleRoomUpdate { cStMgmt with lastActionTime := 7777 } rPush).rooms
        = (handleRoomUpdate cStMgmt rPush).rooms ∧
      (handleRoomUpdate cStMgmt rPush).rooms.find? (fun x => x.room_id == rPush.room_id)
        = some rPush ∧
      (cStMgmt.currentMode = Mode.management → truthy rPush.is_active = true →
        rPush ∈ renderCurrentView (handleRoomUpdate cStMgmt rPush))) :=
  ⟨by decide, C3_push_reconciliation cStMgmt rPush 7777 (by decide)⟩

/-- C8: in selection mode with zero active rooms, both confirm-selection
and the mode toggle are rejected: the state (mode and rooms) is returned
unchanged, no request is issued, and the error toast is shown; and either
path reaches management mode only when at least one room is active. -/
theorem C8_selection_guard (st : ClientState) (hmode : st.currentMode = Mode.selection) :
    (activeCount st.rooms = 0 →
      confirmSelection st = ⟨st, [], [(selectPrompt, "error")]⟩ ∧
      toggleMode st = ⟨st, [], [(selectPrompt, "error")]⟩) ∧
    ((confirmSelection st).state.currentMode = Mode.management → activeCount st.rooms ≠ 0) ∧
    ((toggleMode st).state.currentMode = Mode.management → activeCount st.rooms ≠ 0) := by
  by_cases hc : activeCount st.rooms = 0
  · refine ⟨fun _ => ⟨?_, ?_⟩, ?_, ?_⟩
    · simp [confirmSelection, hc]
    · simp [toggleMode, hmode, hc]
    · intro hmgmt
      simp [confirmSelection, hc, hmode] at hmgmt
    · intro hmgmt
      simp [toggleMode, hmode, hc] at hmgmt
  · exact ⟨fun h => absurd h hc, fun _ => hc, fun _ => hc⟩

/-- C8 witness: a selection-mode client none of whose rooms is active. -/
theorem C8_selection_guard_witness :
    stSel.currentMode = Mode.selection ∧
    ((activeCount stSel.rooms = 0 →
        confirmSelection stSel = ⟨stSel, [], [(selectPrompt, "error")]⟩ ∧
        toggleMode stSel = ⟨stSel, [], [(selectPrompt, "error")]⟩) ∧
      ((confirmSelection stSel).state.currentMode = Mode.management →
        activeCount stSel.rooms ≠ 0) ∧
      ((toggleMode stSel).state.currentMode = Mode.management →
        activeCount stSel.rooms ≠ 0)) :=
  ⟨rfl, C8_selection_guard stSel rfl⟩
